import Mathlib

/-!
Verification of the SecureBackup backup/restore core against its
natural-language specification.

The Rust sources under `src/app/src-tauri/src/` are shallowly embedded:
bytes are `Nat` values below 256, byte buffers are `List Nat`, maps
(`HashMap<String, _>`) are association lists `List (String × _)` with
unique keys, UTC instants are `Nat` timestamps, and the filesystem effects
of a run are made explicit (scan input, previous manifest, per-file
outcomes, written blobs).  External library primitives (BLAKE3, the
AES-256-GCM AEAD, the zstd codec, `String::from_utf8_lossy`) are modelled
by executable deterministic stand-ins that satisfy the contracts the
repository relies on; everything the repository itself computes is
translated statement by statement from the source.
-/

namespace SecureBackup

/-! ## External primitive models -/

/-- Forces a `Nat` to a literal before it is substituted into `f`, so
that kernel reduction of the iterated hash shares the computed seed
instead of recomputing it per use; semantically `forceNat n f = f n`. -/
def forceNat {α : Type} (n : Nat) (f : Nat → α) : α :=
  match n with
  | 0 => f 0
  | m + 1 => f (m + 1)

theorem forceNat_eq {α : Type} (n : Nat) (f : Nat → α) : forceNat n f = f n := by
  unfold forceNat
  cases n with
  | zero => rfl
  | succ m => rfl

/-- Model of the external BLAKE3 hash: a deterministic executable mixing
function folding the input into a 64-bit seed.  Only determinism and (for
concrete witnesses) key separation of concrete inputs are relied upon. -/
def digestSeed (data : List Nat) : Nat :=
  data.foldl (fun a b => (a * 131 + b + 7) % 18446744073709551616) 9173

/-- The 32-byte digest of the modelled BLAKE3 hash: the seed's bytes spread
over the output positions. -/
def blake3Hash (data : List Nat) : List Nat :=
  forceNat (digestSeed data) (fun t =>
    (List.range 32).map (fun i => (t / 256 ^ (i % 8) + t * (i + 3) + i * i + 11) % 256))

theorem blake3Hash_length (data : List Nat) : (blake3Hash data).length = 32 := by
  simp [blake3Hash, forceNat_eq]

/-- Lowercase hex digit for a value below 16. -/
def hexDigit (n : Nat) : Char :=
  if n < 10 then Char.ofNat (48 + n) else Char.ofNat (87 + n)

/-- Lowercase hex rendering of a byte list (`Hash::to_hex` in the source). -/
def bytesToHex (bs : List Nat) : String :=
  String.mk (bs.flatMap (fun b => [hexDigit (b / 16), hexDigit (b % 16)]))

/-- Rust `blake3::hash(..).to_hex()`: content bytes to a lowercase hex digest. -/
def blake3Hex (data : List Nat) : String :=
  bytesToHex (blake3Hash data)

/-- Model of `str::as_bytes` for the ASCII passphrases the program handles:
each character becomes its code point. -/
def strBytes (s : String) : List Nat :=
  s.toList.map Char.toNat

/-- Model of Rust `String::from_utf8_lossy` followed by `as_bytes`: ASCII
bytes are preserved and any non-ASCII byte is replaced by the UTF-8
encoding of U+FFFD (`ef bf bd`).  The source applies this conversion to
the stored 32 derived key bytes; the claims rely only on the conversion
being a deterministic function of those bytes. -/
def utf8Lossy (data : List Nat) : List Nat :=
  data.foldr (fun b acc => if b < 128 then b :: acc else 239 :: 191 :: 189 :: acc) []

/-! ## Crypto (src/crypto/mod.rs) -/

/-- Rust `CryptoError` from src/crypto/mod.rs. -/
inductive CryptoError where
  | EncryptionFailed
  | DecryptionFailed
  | InvalidFormat
  | PasswordTooShort
deriving DecidableEq, Repr

def SALT_SIZE : Nat := 32
def NONCE_SIZE : Nat := 12
def KEY_SIZE : Nat := 32
def PBKDF2_ITERATIONS : Nat := 100000

/-- Rust `Encryptor::derive_key`: BLAKE3 of password ++ salt, then
`PBKDF2_ITERATIONS / 1000` rounds of re-hashing `result ++ salt`. -/
def derive_key (password : List Nat) (salt : List Nat) : List Nat :=
  let first := blake3Hash (password ++ salt)
  (List.range (PBKDF2_ITERATIONS / 1000)).foldl
    (fun result _ => blake3Hash (result ++ salt)) first

theorem derive_key_length (password salt : List Nat) :
    (derive_key password salt).length = 32 := by
  unfold derive_key
  have h : ∀ (l : List Nat) (init : List Nat), init.length = 32 →
      (l.foldl (fun result _ => blake3Hash (result ++ salt)) init).length = 32 := by
    intro l
    induction l with
    | nil => intro init hi; simpa using hi
    | cons a as ih =>
        intro init hi
        simp only [List.foldl_cons]
        exact ih _ (blake3Hash_length _)
  exact h _ _ (blake3Hash_length _)

/-- Rust `Encryptor` from src/crypto/mod.rs: holds the key derived from the
passphrase with the all-zero salt (`Encryptor::new`). -/
structure Encryptor where
  key : List Nat
deriving DecidableEq, Repr

/-- Rust `Encryptor::new`: derive the stored key from the password and a
32-byte zero salt. -/
def Encryptor.new (password : String) : Encryptor :=
  { key := derive_key (strBytes password) (List.replicate SALT_SIZE 0) }

/-- Keystream of the idealized AEAD model (stands in for AES-256-GCM CTR
encryption): a deterministic byte stream from (key, nonce). -/
def keystream (key nonce : List Nat) (len : Nat) : List Nat :=
  (List.range len).map (fun i => (digestSeed (key ++ nonce) + i * 37 + 1) % 256)

theorem keystream_length (key nonce : List Nat) (len : Nat) :
    (keystream key nonce len).length = len := by
  simp [keystream]

/-- Idealized model of the external AES-256-GCM AEAD encryption: the
plaintext is XOR-masked with the keystream and the 32-byte key plays the
role of the authentication tag appended to the ciphertext, so that
verification succeeds exactly when decryption uses the same key.  This
captures the two contracts the repository relies on: round-trip under the
same key, and rejection under a different key. -/
def aeadEncrypt (key nonce pt : List Nat) : List Nat :=
  (pt.zipWith Nat.xor (keystream key nonce pt.length)) ++ key

/-- Idealized model of AES-256-GCM AEAD decryption: split off the trailing
32-byte tag, verify it against the key, and unmask with the keystream;
`none` models an AEAD verification failure. -/
def aeadDecrypt (key nonce data : List Nat) : Option (List Nat) :=
  if 32 ≤ data.length then
    let ct := data.take (data.length - 32)
    let tag := data.drop (data.length - 32)
    if tag = key then some (ct.zipWith Nat.xor (keystream key nonce ct.length))
    else none
  else none

theorem zipWith_xor_cancel :
    ∀ (l k : List Nat), l.length ≤ k.length →
      (l.zipWith Nat.xor k).zipWith Nat.xor k = l := by
  intro l
  induction l with
  | nil => intro k _; simp
  | cons a as ih =>
      intro k hk
      cases k with
      | nil => simp at hk
      | cons b bs =>
          simp only [List.zipWith_cons_cons]
          have h2 : (as.zipWith Nat.xor bs).zipWith Nat.xor bs = as :=
            ih bs (by simpa using Nat.le_of_succ_le_succ hk)
          simp only [h2, List.cons.injEq]
          refine ⟨?_, trivial⟩
          show (a ^^^ b) ^^^ b = a
          rw [Nat.xor_assoc, Nat.xor_self, Nat.xor_zero]

theorem aead_roundtrip (key nonce pt : List Nat) (hk : key.length = 32) :
    aeadDecrypt key nonce (aeadEncrypt key nonce pt) = some pt := by
  unfold aeadEncrypt aeadDecrypt
  set msk := pt.zipWith Nat.xor (keystream key nonce pt.length) with hmsk
  have hct : msk.length = pt.length := by
    simp [hmsk, keystream_length]
  have hlen : (msk ++ key).length = pt.length + 32 := by simp [hct, hk]
  rw [hlen]
  have h32 : 32 ≤ pt.length + 32 := by omega
  rw [if_pos h32]
  have hsub : pt.length + 32 - 32 = pt.length := by omega
  rw [hsub]
  have htake : (msk ++ key).take pt.length = msk := by
    rw [← hct]; exact List.take_left _ _
  have hdrop : (msk ++ key).drop pt.length = key := by
    rw [← hct]; exact List.drop_left _ _
  rw [htake, hdrop, if_pos rfl, hct, hmsk]
  have h2 := zipWith_xor_cancel pt (keystream key nonce pt.length)
    (by simp [keystream_length])
  rw [h2]

theorem aead_reject_wrong_key (key key2 nonce nonce2 pt : List Nat)
    (hk : key.length = 32) (hne : key2 ≠ key) :
    aeadDecrypt key2 nonce2 (aeadEncrypt key nonce pt) = none := by
  unfold aeadEncrypt aeadDecrypt
  set msk := pt.zipWith Nat.xor (keystream key nonce pt.length) with hmsk
  have hct : msk.length = pt.length := by
    simp [hmsk, keystream_length]
  have hlen : (msk ++ key).length = pt.length + 32 := by simp [hct, hk]
  rw [hlen]
  have h32 : 32 ≤ pt.length + 32 := by omega
  rw [if_pos h32]
  have hsub : pt.length + 32 - 32 = pt.length := by omega
  rw [hsub]
  have hdrop : (msk ++ key).drop pt.length = key := by
    rw [← hct]; exact List.drop_left _ _
  rw [hdrop, if_neg (fun h => hne h.symm)]

/-- Rust `Encryptor::encrypt`: the per-call random salt and nonce are explicit
inputs of the model.  The per-blob key is re-derived from the lossy UTF-8
reading of the stored key bytes and the fresh salt, then the envelope
`salt ++ nonce ++ aead-output` is assembled. -/
def Encryptor.encrypt (e : Encryptor) (salt nonce pt : List Nat) :
    Except CryptoError (List Nat) :=
  let key := derive_key (utf8Lossy e.key) salt
  let ciphertext := aeadEncrypt key nonce pt
  .ok (salt ++ nonce ++ ciphertext)

/-- Rust `Encryptor::decrypt`: reject envelopes shorter than `SALT_SIZE +
NONCE_SIZE` with `InvalidFormat`, split the envelope, re-derive the key
from the embedded salt, and map an AEAD verification failure to
`DecryptionFailed`. -/
def Encryptor.decrypt (e : Encryptor) (data : List Nat) :
    Except CryptoError (List Nat) :=
  if data.length < SALT_SIZE + NONCE_SIZE then .error .InvalidFormat
  else
    let salt := data.take SALT_SIZE
    let nonce := (data.drop SALT_SIZE).take NONCE_SIZE
    let ciphertext := data.drop (SALT_SIZE + NONCE_SIZE)
    let key := derive_key (utf8Lossy e.key) salt
    match aeadDecrypt key nonce ciphertext with
    | some pt => .ok pt
    | none => .error .DecryptionFailed

/-- Rust `Encryptor::check_password_strength` from src/crypto/mod.rs. -/
inductive PasswordStrength where
  | Weak
  | Medium
  | Strong
deriving DecidableEq, Repr

def check_password_strength (password : String) : PasswordStrength :=
  let len := password.length
  let has_upper := password.toList.any (fun c => c.isUpper)
  let has_lower := password.toList.any (fun c => c.isLower)
  let has_digit := password.toList.any (fun c => c.isDigit)
  let has_special := password.toList.any (fun c => !c.isAlphanum)
  let score := (if len ≥ 8 then 1 else 0) + (if len ≥ 12 then 1 else 0)
    + (if has_upper then 1 else 0) + (if has_lower then 1 else 0)
    + (if has_digit then 1 else 0) + (if has_special then 1 else 0)
  if score ≤ 2 then .Weak else if score ≤ 4 then .Medium else .Strong

/-! ## zstd codec model -/

/-- Model of the external `zstd::encode_all`: a zstd frame is modelled as
the four magic bytes followed by the payload.  Only invertibility is
relied upon. -/
def zstdEncode (_level : Nat) (data : List Nat) : List Nat :=
  40 :: 181 :: 47 :: 253 :: data

/-- Model of the external `zstd::decode_all`: strip the magic bytes,
failing (`none`) on anything that is not a frame. -/
def zstdDecode (data : List Nat) : Option (List Nat) :=
  match data with
  | 40 :: 181 :: 47 :: 253 :: rest => some rest
  | _ => none

theorem zstd_roundtrip (level : Nat) (data : List Nat) :
    zstdDecode (zstdEncode level data) = some data := rfl

/-! ## Association-list maps (model of `HashMap<String, V>`) -/

/-- Rust `HashMap::get` on the association-list model: first binding wins
(keys are unique in every map the program builds). -/
def mapGet {α : Type} (l : List (String × α)) (k : String) : Option α :=
  match l with
  | [] => none
  | (k2, v) :: rest => if k2 = k then some v else mapGet rest k

theorem mapGet_eq_none {α : Type} (l : List (String × α)) (k : String) :
    mapGet l k = none ↔ k ∉ l.map Prod.fst := by
  induction l with
  | nil => simp [mapGet]
  | cons a rest ih =>
      obtain ⟨k2, v⟩ := a
      by_cases h : k2 = k
      · subst h; simp [mapGet]
      · simp [mapGet, h, ih, Ne.symm h]

theorem mapGet_some_mem {α : Type} {l : List (String × α)} {k : String} {v : α}
    (h : mapGet l k = some v) : (k, v) ∈ l := by
  induction l with
  | nil => simp [mapGet] at h
  | cons a rest ih =>
      obtain ⟨k2, w⟩ := a
      by_cases hk : k2 = k
      · subst hk
        simp [mapGet] at h
        simp [h]
      · simp [mapGet, hk] at h
        exact List.mem_cons_of_mem _ (ih h)

theorem mapGet_isSome_of_mem {α : Type} {l : List (String × α)} {k : String} {v : α}
    (h : (k, v) ∈ l) : ∃ w, mapGet l k = some w := by
  induction l with
  | nil => simp at h
  | cons a rest ih =>
      obtain ⟨k2, w⟩ := a
      by_cases hk : k2 = k
      · subst hk; exact ⟨w, by simp [mapGet]⟩
      · rcases List.mem_cons.mp h with h1 | h1
        · rw [Prod.mk.injEq] at h1; exact absurd h1.1.symm hk
        · simpa [mapGet, hk] using ih h1

theorem mem_mapGet_of_nodup {α : Type} {l : List (String × α)} {k : String} {v : α}
    (hn : (l.map Prod.fst).Nodup) (h : (k, v) ∈ l) : mapGet l k = some v := by
  induction l with
  | nil => simp at h
  | cons a rest ih =>
      obtain ⟨k2, w⟩ := a
      simp only [List.map_cons, List.nodup_cons] at hn
      rcases List.mem_cons.mp h with h1 | h1
      · rw [Prod.mk.injEq] at h1
        obtain ⟨hk, hv⟩ := h1
        subst hk; subst hv
        simp [mapGet]
      · have hk : k2 ≠ k := by
          intro he; subst he
          exact hn.1 (List.mem_map.mpr ⟨(k2, v), h1, rfl⟩)
        simpa [mapGet, hk] using ih hn.2 h1

/-! ## Data model (src/backup/scanner.rs, src/backup/manifest.rs) -/

/-- Rust `FileInfo` from src/backup/scanner.rs. -/
structure FileInfo where
  relative_path : String
  size : Nat
  modified : Nat
  hash : Option String
deriving DecidableEq, Repr

/-- Rust `ScanResult` from src/backup/scanner.rs. -/
structure ScanResult where
  source_dir : String
  scanned_at : Nat
  files : List (String × FileInfo)
  total_files : Nat
  total_size : Nat
deriving DecidableEq, Repr

/-- Rust `DiffResult` from src/backup/scanner.rs. -/
structure DiffResult where
  added : List String
  modified : List String
  deleted : List String
  unchanged : List String
deriving DecidableEq, Repr

/-- Rust `ManifestEntry` from src/backup/manifest.rs. -/
structure ManifestEntry where
  path : String
  original_size : Nat
  backed_up_size : Nat
  hash : String
  modified : Nat
  encrypted : Bool
  compressed : Bool
deriving DecidableEq, Repr

/-- Rust `ManifestConfig` from src/backup/manifest.rs. -/
structure ManifestConfig where
  encrypt : Bool
  compress : Bool
  incremental : Bool
deriving DecidableEq, Repr

/-- Rust `ManifestStats` from src/backup/manifest.rs. -/
structure ManifestStats where
  total_files : Nat
  total_original_size : Nat
  total_backed_up_size : Nat
  last_backup : Nat
  backup_count : Nat
deriving DecidableEq, Repr

/-- Rust `BackupManifest` from src/backup/manifest.rs. -/
structure BackupManifest where
  version : String
  created_at : Nat
  updated_at : Nat
  source_dir : String
  config : ManifestConfig
  files : List (String × ManifestEntry)
  stats : ManifestStats
deriving DecidableEq, Repr

/-- Rust `BackupConfig` from src/backup/executor.rs. -/
structure BackupConfig where
  source_dir : String
  dest_dir : String
  encrypt : Bool
  compress : Bool
  incremental : Bool
  exclude_patterns : List String
deriving DecidableEq, Repr

/-- Rust `BackupManifest::from_scan`: a fresh manifest built from one scan;
`Utc::now()` is the explicit `now` input.  Note `backup_count = 1` and
`backed_up_size = 0`. -/
def BackupManifest.from_scan (scan : ScanResult) (config : BackupConfig)
    (now : Nat) : BackupManifest :=
  { version := "1.0.0"
    created_at := now
    updated_at := now
    source_dir := scan.source_dir
    config := { encrypt := config.encrypt, compress := config.compress,
                incremental := config.incremental }
    files := scan.files.map (fun pi =>
      (pi.1, { path := pi.1
               original_size := pi.2.size
               backed_up_size := 0
               hash := pi.2.hash.getD ""
               modified := pi.2.modified
               encrypted := config.encrypt
               compressed := config.compress }))
    stats := { total_files := scan.total_files
               total_original_size := scan.total_size
               total_backed_up_size := 0
               last_backup := now
               backup_count := 1 } }

/-- One step of the `entry().and_modify().or_insert_with()` loop of
`BackupManifest::update`. -/
def manifestUpsert (config : ManifestConfig)
    (files : List (String × ManifestEntry)) (path : String) (info : FileInfo) :
    List (String × ManifestEntry) :=
  if (mapGet files path).isSome then
    files.map (fun pe =>
      if pe.1 = path then
        (pe.1, { pe.2 with hash := info.hash.getD ""
                           original_size := info.size
                           modified := info.modified })
      else pe)
  else
    files ++ [(path, { path := path
                       original_size := info.size
                       backed_up_size := 0
                       hash := info.hash.getD ""
                       modified := info.modified
                       encrypted := config.encrypt
                       compressed := config.compress })]

/-- Rust `BackupManifest::update`: refresh timestamps, increment
`backup_count`, upsert every scanned file, drop entries no longer
present, and recompute the two stats totals. -/
def BackupManifest.update (m : BackupManifest) (scan : ScanResult)
    (now : Nat) : BackupManifest :=
  let files1 := scan.files.foldl
    (fun files pi => manifestUpsert m.config files pi.1 pi.2) m.files
  let files2 := files1.filter (fun pe => (mapGet scan.files pe.1).isSome)
  { m with
    updated_at := now
    files := files2
    stats := { m.stats with
               last_backup := now
               backup_count := m.stats.backup_count + 1
               total_files := files2.length
               total_original_size := (files2.map (fun pe => pe.2.original_size)).sum } }

/-! ## Differ (src/backup/scanner.rs `compute_diff`,
src/backup/executor.rs `compute_diff_from_manifest`)

Both differs share the same loop shape: walk the current scan's files,
classify each path against a lookup into the previous state, and then
collect the previous paths missing from the current scan.  `classifyNew`
captures that shared loop once; each differ instantiates the lookup and
the modification test with the exact condition of its source. -/

/-- The shared "new/modified/unchanged" loop of the two differs.  Returns
`(added, modified, unchanged)` in scan iteration order. -/
def classifyNew {β : Type} (lookupOld : String → Option β)
    (isMod : β → FileInfo → Bool) :
    List (String × FileInfo) → List String × List String × List String
  | [] => ([], [], [])
  | (path, new_info) :: rest =>
    let r := classifyNew lookupOld isMod rest
    match lookupOld path with
    | some old => if isMod old new_info then (r.1, path :: r.2.1, r.2.2)
                  else (r.1, r.2.1, path :: r.2.2)
    | none => (path :: r.1, r.2.1, r.2.2)

/-- The shared "deleted" loop of the two differs: previous paths absent
from the current scan, in previous iteration order. -/
def detectDeleted {β : Type} (currentFiles : List (String × FileInfo)) :
    List (String × β) → List String
  | [] => []
  | (path, _) :: rest =>
    if (mapGet currentFiles path).isSome then detectDeleted currentFiles rest
    else path :: detectDeleted currentFiles rest

/-- The per-pair modification test of `compute_diff`: hashes are compared
when both sides carry one, otherwise (size, modified) equality decides. -/
def scanPairModified (old_info new_info : FileInfo) : Bool :=
  match old_info.hash, new_info.hash with
  | some old_hash, some new_hash => old_hash != new_hash
  | _, _ => old_info.size != new_info.size || old_info.modified != new_info.modified

/-- Rust `compute_diff` from src/backup/scanner.rs. -/
def compute_diff (old : ScanResult) (new : ScanResult) : DiffResult :=
  let r := classifyNew (mapGet old.files) scanPairModified new.files
  { added := r.1, modified := r.2.1,
    deleted := detectDeleted new.files old.files, unchanged := r.2.2 }

/-- The per-pair modification test of `compute_diff_from_manifest`: the
manifest hash is compared against `info.hash.clone().unwrap_or_default()`
— a scan without a hash contributes the empty string, with no fallback to
(size, modified). -/
def manifestPairModified (entry : ManifestEntry) (file_info : FileInfo) : Bool :=
  entry.hash != file_info.hash.getD ""

/-- Rust `compute_diff_from_manifest` from src/backup/executor.rs. -/
def compute_diff_from_manifest (manifest : BackupManifest)
    (current : ScanResult) : DiffResult :=
  let r := classifyNew (mapGet manifest.files) manifestPairModified current.files
  { added := r.1, modified := r.2.1,
    deleted := detectDeleted current.files manifest.files, unchanged := r.2.2 }

/-! ## Scanner (src/backup/scanner.rs) -/

/-- Bool test for "`needle` is a prefix of `hay`" on character lists. -/
def charsStartWith : List Char → List Char → Bool
  | [], _ => true
  | _ :: _, [] => false
  | a :: as, b :: bs => a = b && charsStartWith as bs

/-- Scans the haystack for an occurrence of the needle at any position. -/
def charsContain (needle : List Char) : List Char → Bool
  | [] => charsStartWith needle []
  | c :: rest => charsStartWith needle (c :: rest) || charsContain needle rest

/-- Model of the Rust substring test `str::contains`. -/
def strContains (s pat : String) : Bool :=
  charsContain pat.toList s.toList

/-- One entry yielded by the modelled `WalkDir` traversal: the path
components below the scan root, the file metadata, and the content bytes
read when hashing is enabled. -/
structure WalkEntry where
  path : List String
  isFile : Bool
  size : Nat
  modified : Nat
  content : List Nat
deriving DecidableEq, Repr

/-- Rust `DirectoryScanner` from src/backup/scanner.rs; the source root is
kept as path components so exclusion can inspect every component of the
full path, as `is_excluded` does. -/
structure DirectoryScanner where
  source : List String
  exclude_patterns : List String
  compute_hash : Bool
deriving DecidableEq, Repr

/-- Rust `DirectoryScanner::new`: default exclusion patterns, hashing off. -/
def DirectoryScanner.new (source : List String) : DirectoryScanner :=
  { source := source
    exclude_patterns := [".git", "node_modules", "target", ".DS_Store", "Thumbs.db"]
    compute_hash := false }

/-- Rust `DirectoryScanner::with_hash`. -/
def DirectoryScanner.with_hash (sc : DirectoryScanner) : DirectoryScanner :=
  { sc with compute_hash := true }

/-- Rust `DirectoryScanner::exclude`. -/
def DirectoryScanner.excludePattern (sc : DirectoryScanner) (pattern : String) :
    DirectoryScanner :=
  { sc with exclude_patterns := sc.exclude_patterns ++ [pattern] }

/-- Rust `DirectoryScanner::is_excluded`: some component of the path contains
some exclusion pattern as a substring. -/
def DirectoryScanner.is_excluded (sc : DirectoryScanner)
    (pathComponents : List String) : Bool :=
  pathComponents.any (fun name =>
    sc.exclude_patterns.any (fun p => strContains name p))

/-- The relative path of a walk entry: components joined with `/`
(`strip_prefix` + backslash normalization in the source). -/
def WalkEntry.relativePath (e : WalkEntry) : String :=
  String.intercalate "/" e.path

/-- The loop body of `DirectoryScanner::scan`: build a `FileInfo` for
every non-excluded regular file, hash it when enabled, accumulate the
total size, and key the map by the relative path.  A walk never yields
the same path twice, so `HashMap::insert` never overwrites and is
modelled by consing. -/
def scanLoop (sc : DirectoryScanner) :
    List WalkEntry → List (String × FileInfo) × Nat
  | [] => ([], 0)
  | e :: rest =>
    if !sc.is_excluded (sc.source ++ e.path) && e.isFile then
      let file_info : FileInfo :=
        { relative_path := e.relativePath
          size := e.size
          modified := e.modified
          hash := if sc.compute_hash then some (blake3Hex e.content) else none }
      let r := scanLoop sc rest
      ((file_info.relative_path, file_info) :: r.1, e.size + r.2)
    else scanLoop sc rest

/-- Rust `DirectoryScanner::scan` over a modelled walk of the source root;
`Utc::now()` is the explicit `now` input.  The root-missing and I/O
failure paths are not modelled: the claims quantify over scans that
succeeded. -/
def DirectoryScanner.scan (sc : DirectoryScanner) (walk : List WalkEntry)
    (now : Nat) : ScanResult :=
  let r := scanLoop sc walk
  { source_dir := String.intercalate "/" sc.source
    scanned_at := now
    files := r.1
    total_files := r.1.length
    total_size := r.2 }

/-! ## Backup executor (src/backup/executor.rs)

`BackupExecutor::execute` is embedded as a pure function of the run's
inputs: the configuration, the scan the run performs, the previously
persisted manifest (if `manifest.json` existed), the outcome of
`backup_file` for each path (success with the original byte count, or the
rendered error message), and the `Utc::now()` readings.  Its outputs are
the `BackupResult`, the manifest written by `save_manifest`, and the
ordered list of progress events handed to the callback. -/

/-- Rust `BackupStatus` from src/backup/executor.rs. -/
inductive BackupStatus where
  | Idle
  | Scanning
  | ComputingDiff
  | Backing
  | Completed
  | Failed
deriving DecidableEq, Repr

/-- Rust `BackupProgress` from src/backup/executor.rs. -/
structure BackupProgress where
  processed_files : Nat
  total_files : Nat
  processed_bytes : Nat
  total_bytes : Nat
  current_file : Option String
  status : BackupStatus
  error : Option String
deriving DecidableEq, Repr

/-- Rust `BackupResult` from src/backup/executor.rs. -/
structure BackupResult where
  started_at : Nat
  finished_at : Nat
  backed_up_files : Nat
  backed_up_bytes : Nat
  skipped_files : Nat
  failed_files : List String
  success : Bool
deriving DecidableEq, Repr

/-- Accumulated outcome of the per-file loop. -/
structure BackupLoopOut where
  backed_up_files : Nat
  backed_up_bytes : Nat
  failed_files : List String
  events : List BackupProgress
deriving DecidableEq, Repr

/-- The per-file loop of `BackupExecutor::execute`: one `Backing` event
per file (with the enumeration index as `processed_files`), then either
the success counters grow or `"<path>: <error>"` is recorded; the loop
never aborts. -/
def backupLoop (backupFile : String → Except String Nat)
    (totalFiles totalBytes : Nat) :
    List String → Nat → Nat → Nat → BackupLoopOut
  | [], _idx, backedFiles, backedBytes =>
    { backed_up_files := backedFiles, backed_up_bytes := backedBytes,
      failed_files := [], events := [] }
  | file_path :: rest, idx, backedFiles, backedBytes =>
    let ev : BackupProgress :=
      { processed_files := idx, total_files := totalFiles,
        processed_bytes := backedBytes, total_bytes := totalBytes,
        current_file := some file_path, status := .Backing, error := none }
    match backupFile file_path with
    | .ok size =>
      let r := backupLoop backupFile totalFiles totalBytes rest (idx + 1)
        (backedFiles + 1) (backedBytes + size)
      { r with events := ev :: r.events }
    | .error e =>
      let r := backupLoop backupFile totalFiles totalBytes rest (idx + 1)
        backedFiles backedBytes
      { r with failed_files := (file_path ++ ": " ++ e) :: r.failed_files,
               events := ev :: r.events }

/-- Rust `BackupExecutor::compute_incremental_files`: with a previous manifest
the work set is `added ++ modified` and the skipped count `|unchanged|`;
without one, every scanned path with skipped count 0. -/
def compute_incremental_files (scan : ScanResult)
    (prevManifest : Option BackupManifest) : List String × Nat :=
  match prevManifest with
  | some manifest =>
    let diff := compute_diff_from_manifest manifest scan
    (diff.added ++ diff.modified, diff.unchanged.length)
  | none => (scan.files.map Prod.fst, 0)

/-- The work set and skipped count chosen by `BackupExecutor::execute`
step 3. -/
def filesToBackup (config : BackupConfig) (scan : ScanResult)
    (prevManifest : Option BackupManifest) : List String × Nat :=
  if config.incremental then compute_incremental_files scan prevManifest
  else (scan.files.map Prod.fst, 0)

/-- The three outputs of one `BackupExecutor::execute` run. -/
structure RunOutput where
  result : BackupResult
  manifest : BackupManifest
  events : List BackupProgress
deriving DecidableEq, Repr

/-- Rust `BackupExecutor::execute`: emit `Scanning` and `ComputingDiff`,
choose the work set, run the per-file loop, save the manifest rebuilt
from the fresh scan via `BackupManifest::from_scan`, and emit the
terminal event whose `processed_files` is `backed_up_files` and whose
status is `Completed` iff no file failed. -/
def BackupExecutor.execute (config : BackupConfig) (scan : ScanResult)
    (prevManifest : Option BackupManifest)
    (backupFile : String → Except String Nat)
    (startedAt finishedAt now : Nat) : RunOutput :=
  let ev1 : BackupProgress :=
    { processed_files := 0, total_files := 0, processed_bytes := 0,
      total_bytes := 0, current_file := none, status := .Scanning, error := none }
  let ev2 : BackupProgress :=
    { processed_files := 0, total_files := scan.total_files,
      processed_bytes := 0, total_bytes := scan.total_size,
      current_file := none, status := .ComputingDiff, error := none }
  let work := filesToBackup config scan prevManifest
  let loop := backupLoop backupFile work.1.length scan.total_size work.1 0 0 0
  let manifest := BackupManifest.from_scan scan config now
  let evFinal : BackupProgress :=
    { processed_files := loop.backed_up_files, total_files := work.1.length,
      processed_bytes := loop.backed_up_bytes, total_bytes := scan.total_size,
      current_file := none,
      status := if loop.failed_files.isEmpty then .Completed else .Failed,
      error := if loop.failed_files.isEmpty then none
               else some (toString loop.failed_files.length ++ "個のファイルでエラー") }
  { result := { started_at := startedAt, finished_at := finishedAt,
                backed_up_files := loop.backed_up_files,
                backed_up_bytes := loop.backed_up_bytes,
                skipped_files := work.2,
                failed_files := loop.failed_files,
                success := loop.failed_files.isEmpty }
    manifest := manifest
    events := ev1 :: ev2 :: (loop.events ++ [evFinal]) }

/-- Net effect of the `set_extension` dance in `backup_file` and
`restore_file`: whether the filename has an extension (`e` becomes
`e.enc`) or not (`enc` is set), the blob path is the original path with
`.enc` appended. -/
def addEncExtension (path : String) : String := path ++ ".enc"

/-- Rust `BackupError` rendered messages are opaque strings in this model;
`backup_file` itself touches the filesystem, so runs are parameterized by
its per-path outcome.  `backup_file`'s pure transform pipeline (compress
then encrypt, choosing the `.enc` path) is embedded separately for the
restore scenario. -/
def backup_file_transform (config : BackupConfig) (encryptor : Option Encryptor)
    (salt nonce : List Nat) (relative_path : String) (content : List Nat) :
    Except CryptoError (String × List Nat) :=
  let data := if config.compress then zstdEncode 3 content else content
  if config.encrypt then
    match encryptor with
    | some e =>
      match e.encrypt salt nonce data with
      | .ok encrypted => .ok (addEncExtension relative_path, encrypted)
      | .error err => .error err
    | none => .ok (relative_path, data)
  else .ok (relative_path, data)

/-! ## Restore executor (src/backup/restore.rs) -/

/-- Rust `RestoreError` from src/backup/restore.rs, with the rendered message
of its `Display` implementation. -/
inductive RestoreError where
  | Io (msg : String)
  | Crypto (e : CryptoError)
  | ManifestNotFound (path : String)
  | ManifestParse (msg : String)
  | BackupFileNotFound (path : String)
  | Decompression
  | WrongPassword
deriving DecidableEq, Repr

/-- The `thiserror` display strings of `RestoreError`. -/
def RestoreError.message : RestoreError → String
  | .Io m => "IOエラー: " ++ m
  | .Crypto _ => "復号化エラー"
  | .ManifestNotFound p => "マニフェストが見つかりません: " ++ p
  | .ManifestParse m => "マニフェストの解析に失敗しました: " ++ m
  | .BackupFileNotFound p => "バックアップファイルが見つかりません: " ++ p
  | .Decompression => "解凍エラー"
  | .WrongPassword => "パスワードが正しくありません"

/-- Rust `RestoreConfig` from src/backup/restore.rs. -/
structure RestoreConfig where
  backup_dir : String
  restore_dir : String
  files : List String
  overwrite : Bool
deriving DecidableEq, Repr

/-- Rust `RestoreResult` from src/backup/restore.rs. -/
structure RestoreResult where
  started_at : Nat
  finished_at : Nat
  restored_files : Nat
  restored_bytes : Nat
  skipped_files : Nat
  failed_files : List String
  success : Bool
deriving DecidableEq, Repr

/-- Rust `RestoreFileResult` from src/backup/restore.rs, extended with the
plaintext bytes the success path writes, so a run's writes are explicit. -/
inductive RestoreFileResult where
  | Restored (size : Nat) (path : String) (bytes : List Nat)
  | Skipped
deriving DecidableEq, Repr

/-- Rust `RestoreExecutor::restore_file`: skip when the destination exists and
overwrite is off; resolve the blob path (`.enc` iff `entry.encrypted`);
fail with `BackupFileNotFound` when the blob is missing; decrypt iff
`entry.encrypted`, mapping any failure (or a missing encryptor) to
`WrongPassword`; decompress iff `entry.compressed || manifest.config.compress`;
return the bytes written and `entry.original_size`.  The destination
blobs under `data/` are the `destData` map keyed by data-relative path;
`existing` lists the paths already present under the restore root. -/
def RestoreExecutor.restore_file (config : RestoreConfig)
    (encryptor : Option Encryptor) (destData : List (String × List Nat))
    (existing : List String) (manifest : BackupManifest)
    (entry : ManifestEntry) : Except RestoreError RestoreFileResult :=
  if entry.path ∈ existing ∧ ¬config.overwrite then .ok .Skipped
  else
    let backup_file_path :=
      if entry.encrypted then addEncExtension entry.path else entry.path
    match mapGet destData backup_file_path with
    | none => .error (.BackupFileNotFound backup_file_path)
    | some data =>
      let step1 : Except RestoreError (List Nat) :=
        if entry.encrypted then
          match encryptor with
          | some e =>
            match e.decrypt data with
            | .ok pt => .ok pt
            | .error _ => .error .WrongPassword
          | none => .error .WrongPassword
        else .ok data
      match step1 with
      | .error e => .error e
      | .ok data1 =>
        let step2 : Except RestoreError (List Nat) :=
          if entry.compressed || manifest.config.compress then
            match zstdDecode data1 with
            | some d => .ok d
            | none => .error .Decompression
          else .ok data1
        match step2 with
        | .error e => .error e
        | .ok data2 => .ok (.Restored entry.original_size entry.path data2)

/-- The per-entry loop of `RestoreExecutor::execute`, also collecting the
`(path, bytes)` writes the successful entries perform. -/
def restoreLoop (config : RestoreConfig) (encryptor : Option Encryptor)
    (destData : List (String × List Nat)) (existing : List String)
    (manifest : BackupManifest) :
    List ManifestEntry → Nat × Nat × Nat × List String × List (String × List Nat)
  | [] => (0, 0, 0, [], [])
  | entry :: rest =>
    let r := restoreLoop config encryptor destData existing manifest rest
    match RestoreExecutor.restore_file config encryptor destData existing
        manifest entry with
    | .ok (.Restored size path bytes) =>
      (r.1 + 1, r.2.1 + size, r.2.2.1, r.2.2.2.1, (path, bytes) :: r.2.2.2.2)
    | .ok .Skipped => (r.1, r.2.1, r.2.2.1 + 1, r.2.2.2.1, r.2.2.2.2)
    | .error e =>
      (r.1, r.2.1, r.2.2.1, (entry.path ++ ": " ++ e.message) :: r.2.2.2.1,
       r.2.2.2.2)

/-- Rust `RestoreExecutor::execute` given a successfully loaded manifest: pick
the target entries (all of them when the request list is empty, otherwise
the requested paths found in the manifest), run the loop, and return the
result together with the writes performed.  `success` is
`failed_files.is_empty()`. -/
def RestoreExecutor.execute (config : RestoreConfig)
    (encryptor : Option Encryptor) (manifest : BackupManifest)
    (destData : List (String × List Nat)) (existing : List String)
    (startedAt finishedAt : Nat) : RestoreResult × List (String × List Nat) :=
  let files_to_restore :=
    if config.files.isEmpty then manifest.files.map Prod.snd
    else config.files.filterMap (fun path => mapGet manifest.files path)
  let r := restoreLoop config encryptor destData existing manifest files_to_restore
  ({ started_at := startedAt, finished_at := finishedAt,
     restored_files := r.1, restored_bytes := r.2.1,
     skipped_files := r.2.2.1, failed_files := r.2.2.2.1,
     success := r.2.2.2.1.isEmpty }, r.2.2.2.2)

/-! ## Command surface (src/commands/mod.rs) -/

/-- Rust `ProgressResponse` from src/commands/mod.rs; the `f64` percentage is
modelled exactly over the rationals. -/
structure ProgressResponse where
  active : Bool
  processed_files : Nat
  total_files : Nat
  processed_bytes : Nat
  total_bytes : Nat
  current_file : Option String
  status : String
  percentage : ℚ
deriving DecidableEq, Repr

/-- Debug rendering of a `BackupStatus` (`format!("{:?}", ..)`). -/
def BackupStatus.debugString : BackupStatus → String
  | .Idle => "Idle"
  | .Scanning => "Scanning"
  | .ComputingDiff => "ComputingDiff"
  | .Backing => "Backing"
  | .Completed => "Completed"
  | .Failed => "Failed"

/-- Rust `get_progress` from src/commands/mod.rs: the shared progress slot is
its explicit input; a missing snapshot yields the inactive zero response,
and `total_files = 0` yields percentage 0 instead of a division. -/
def get_progress (progress : Option BackupProgress) : ProgressResponse :=
  match progress with
  | some p =>
    let percentage : ℚ :=
      if p.total_files > 0 then
        ((p.processed_files : ℚ) / (p.total_files : ℚ)) * 100
      else 0
    { active := true
      processed_files := p.processed_files
      total_files := p.total_files
      processed_bytes := p.processed_bytes
      total_bytes := p.total_bytes
      current_file := p.current_file
      status := p.status.debugString
      percentage := percentage }
  | none =>
    { active := false, processed_files := 0, total_files := 0,
      processed_bytes := 0, total_bytes := 0, current_file := none,
      status := "Idle", percentage := 0 }

/-! ## Claim theorems -/

/-- Envelope parsing facts shared by the crypto claims. -/
theorem envelope_parse (salt nonce ct : List Nat)
    (hsalt : salt.length = 32) (hnonce : nonce.length = 12) :
    (salt ++ (nonce ++ ct)).take 32 = salt ∧
    ((salt ++ (nonce ++ ct)).drop 32).take 12 = nonce ∧
    (salt ++ (nonce ++ ct)).drop 44 = ct := by
  have h1 : (salt ++ (nonce ++ ct)).take 32 = salt := by
    rw [show (32 : Nat) = salt.length from hsalt.symm]
    exact List.take_left _ _
  have h2 : (salt ++ (nonce ++ ct)).drop 32 = nonce ++ ct := by
    rw [show (32 : Nat) = salt.length from hsalt.symm]
    exact List.drop_left _ _
  have h3 : ((salt ++ (nonce ++ ct)).drop 32).take 12 = nonce := by
    rw [h2, show (12 : Nat) = nonce.length from hnonce.symm]
    exact List.take_left _ _
  have h4 : (salt ++ (nonce ++ ct)).drop 44 = ct := by
    rw [← List.append_assoc,
      show (44 : Nat) = (salt ++ nonce).length by simp [hsalt, hnonce]]
    exact List.drop_left _ _
  exact ⟨h1, h3, h4⟩

/-- C1: for every plaintext byte sequence P and every passphrase W (and
every 32-byte salt and 12-byte nonce drawn for the call), decrypting with
an Encryptor built from W the envelope produced by encrypting P with an
Encryptor built from the same W returns exactly P. -/
theorem encrypt_decrypt_roundtrip (password : String) (salt nonce pt : List Nat)
    (hsalt : salt.length = 32) (hnonce : nonce.length = 12) :
    ((Encryptor.new password).encrypt salt nonce pt).bind
      ((Encryptor.new password).decrypt) = .ok pt := by
  set e := Encryptor.new password with he
  set key := derive_key (utf8Lossy e.key) salt with hkey
  have hkl : key.length = 32 := derive_key_length _ _
  set ct := aeadEncrypt key nonce pt with hct
  have hctl : ct.length = pt.length + 32 := by
    simp [hct, aeadEncrypt, keystream_length, hkl]
  have henc : e.encrypt salt nonce pt = .ok (salt ++ (nonce ++ ct)) := by
    simp [Encryptor.encrypt, hkey, hct, List.append_assoc]
  rw [henc]
  show e.decrypt (salt ++ (nonce ++ ct)) = .ok pt
  obtain ⟨hp1, hp2, hp3⟩ := envelope_parse salt nonce ct hsalt hnonce
  have hlen : (salt ++ (nonce ++ ct)).length = 76 + pt.length := by
    simp [hsalt, hnonce, hctl]; omega
  have hnotshort : ¬ (salt ++ (nonce ++ ct)).length < SALT_SIZE + NONCE_SIZE := by
    rw [hlen]; simp [SALT_SIZE, NONCE_SIZE]; omega
  unfold Encryptor.decrypt
  rw [if_neg hnotshort]
  simp only [SALT_SIZE, NONCE_SIZE]
  rw [show (32 + 12 : Nat) = 44 from rfl]
  rw [hp1, hp2, hp3, ← hkey, hct, aead_roundtrip key nonce pt hkl]

/-- C1 witness: the round trip at a concrete passphrase, salt, nonce and
plaintext. -/
theorem encrypt_decrypt_roundtrip_witness :
    ((Encryptor.new "test_password_123").encrypt (List.replicate 32 5)
        (List.replicate 12 9) (strBytes "Hello, World!")).bind
      ((Encryptor.new "test_password_123").decrypt)
      = .ok (strBytes "Hello, World!") :=
  encrypt_decrypt_roundtrip "test_password_123" _ _ _ (by simp) (by simp)

/-- C5: every envelope shorter than 44 bytes is rejected with
`InvalidFormat`; every envelope of at least 44 bytes on which the AEAD
verification fails (the modelled AEAD returns `none` for the parsed salt,
nonce and ciphertext) is rejected with `DecryptionFailed`, and no
plaintext is ever returned in either case. -/
theorem decrypt_error_paths (e : Encryptor) (data : List Nat) :
    (data.length < 44 → e.decrypt data = .error .InvalidFormat) ∧
    (44 ≤ data.length →
      aeadDecrypt (derive_key (utf8Lossy e.key) (data.take 32))
        ((data.drop 32).take 12) (data.drop 44) = none →
      e.decrypt data = .error .DecryptionFailed) := by
  constructor
  · intro h
    unfold Encryptor.decrypt
    rw [if_pos (by simpa [SALT_SIZE, NONCE_SIZE] using h)]
  · intro h hfail
    unfold Encryptor.decrypt
    rw [if_neg (by simp [SALT_SIZE, NONCE_SIZE]; omega)]
    simp only [SALT_SIZE, NONCE_SIZE]
    rw [show (32 + 12 : Nat) = 44 from rfl, hfail]

/-- C5 witness: a 10-byte buffer is rejected as `InvalidFormat` and a
44-byte all-zero envelope (whose AEAD ciphertext part is empty, hence
unverifiable) as `DecryptionFailed`. -/
theorem decrypt_error_paths_witness :
    ((List.replicate 10 0).length < 44 ∧
      (Encryptor.new "pw").decrypt (List.replicate 10 0)
        = .error .InvalidFormat) ∧
    (44 ≤ (List.replicate 44 0).length ∧
      (Encryptor.new "pw").decrypt (List.replicate 44 0)
        = .error .DecryptionFailed) :=
  ⟨⟨by decide, (decrypt_error_paths (Encryptor.new "pw") _).1 (by decide)⟩,
   ⟨by decide, (decrypt_error_paths (Encryptor.new "pw") _).2 (by decide) rfl⟩⟩

/-- The `failed_files` accumulated by the per-file loop: exactly the
`"<path>: <error>"` strings of the failing files, in work-set order. -/
theorem backupLoop_failed_files (bf : String → Except String Nat) (tf tb : Nat) :
    ∀ (l : List String) (idx a b : Nat),
      (backupLoop bf tf tb l idx a b).failed_files
        = l.filterMap (fun p => match bf p with
            | .error e => some (p ++ ": " ++ e)
            | .ok _ => none) := by
  intro l
  induction l with
  | nil => intro idx a b; simp [backupLoop]
  | cons p rest ih =>
      intro idx a b
      cases hbf : bf p with
      | ok n => simp [backupLoop, hbf, ih]
      | error e => simp [backupLoop, hbf, ih]

/-- C3: in every backup run, a per-file error is recorded as
`"<path>: <error>"` in `failed_files` without aborting the loop (the
failed list is exactly the filter-map of the work set through the
per-file outcomes), the manifest is written from the fresh scan
regardless of failures, and `success` holds iff `failed_files` is empty. -/
theorem backup_per_file_error_handling (config : BackupConfig)
    (scan : ScanResult) (prev : Option BackupManifest)
    (bf : String → Except String Nat) (t1 t2 t3 : Nat) :
    (BackupExecutor.execute config scan prev bf t1 t2 t3).result.failed_files
      = (filesToBackup config scan prev).1.filterMap
          (fun p => match bf p with
            | .error e => some (p ++ ": " ++ e)
            | .ok _ => none) ∧
    (BackupExecutor.execute config scan prev bf t1 t2 t3).manifest
      = BackupManifest.from_scan scan config t3 ∧
    ((BackupExecutor.execute config scan prev bf t1 t2 t3).result.success = true
      ↔ (BackupExecutor.execute config scan prev bf t1 t2 t3).result.failed_files
          = []) := by
  refine ⟨?_, rfl, ?_⟩
  · simp [BackupExecutor.execute, backupLoop_failed_files]
  · simp only [BackupExecutor.execute]
    exact List.isEmpty_iff

/-- The one-file source of the incremental no-op scenario (§8 scenario 4). -/
def c2FileInfo : FileInfo :=
  { relative_path := "test.txt", size := 15, modified := 100,
    hash := some "abc123" }

def c2Scan : ScanResult :=
  { source_dir := "/src", scanned_at := 0,
    files := [("test.txt", c2FileInfo)], total_files := 1, total_size := 15 }

def c2Config : BackupConfig :=
  { source_dir := "/src", dest_dir := "/dst", encrypt := false,
    compress := true, incremental := true, exclude_patterns := [] }

/-- First run: no manifest on the destination yet. -/
def c2Run1 : RunOutput :=
  BackupExecutor.execute c2Config c2Scan none (fun _ => .ok 15) 0 1 1

/-- Second run: unchanged source, the first run's manifest present. -/
def c2Run2 : RunOutput :=
  BackupExecutor.execute c2Config c2Scan (some c2Run1.manifest)
    (fun _ => .ok 15) 2 3 3

/-- C2, evaluated at the failing input: rerunning the backup with
incremental enabled and an unchanged source does yield
`backed_up_files = 0` and `skipped_files = 1`, but the manifest written
by the second run has `backup_count = 1`, not 2 — `save_manifest` always
rebuilds via `BackupManifest::from_scan`, and `BackupManifest::update`
(whose increment would produce 2, as the last conjunct shows) is never
called by the executor. -/
theorem incremental_rerun_backup_count_stays_one :
    c2Run2.result.backed_up_files = 0 ∧
    c2Run2.result.skipped_files = 1 ∧
    c2Run1.manifest.stats.backup_count = 1 ∧
    c2Run2.manifest.stats.backup_count = 1 ∧
    (c2Run1.manifest.update c2Scan 3).stats.backup_count = 2 := by decide

/-- C10: `get_progress` is total — a missing snapshot yields
`active = false` with percentage 0, a snapshot with `total_files = 0`
yields percentage 0 without dividing, and otherwise the percentage is
`processed_files / total_files * 100`. -/
theorem get_progress_total_no_div_zero :
    ((get_progress none).active = false ∧ (get_progress none).percentage = 0) ∧
    (∀ p : BackupProgress, p.total_files = 0 →
      (get_progress (some p)).percentage = 0) ∧
    (∀ p : BackupProgress, 0 < p.total_files →
      (get_progress (some p)).percentage
        = (p.processed_files : ℚ) / (p.total_files : ℚ) * 100) := by
  refine ⟨⟨rfl, rfl⟩, ?_, ?_⟩
  · intro p hp
    simp [get_progress, hp]
  · intro p hp
    simp [get_progress, hp]

def c10ZeroTotal : BackupProgress :=
  { processed_files := 3, total_files := 0, processed_bytes := 0,
    total_bytes := 0, current_file := none, status := .Backing, error := none }

def c10Quarter : BackupProgress :=
  { processed_files := 1, total_files := 4, processed_bytes := 0,
    total_bytes := 0, current_file := none, status := .Backing, error := none }

/-- C10 witness: both hypothesised branches at concrete snapshots. -/
theorem get_progress_total_no_div_zero_witness :
    (get_progress (some c10ZeroTotal)).percentage = 0 ∧
    (get_progress (some c10Quarter)).percentage
      = (c10Quarter.processed_files : ℚ) / (c10Quarter.total_files : ℚ) * 100 :=
  ⟨get_progress_total_no_div_zero.2.1 c10ZeroTotal rfl,
   get_progress_total_no_div_zero.2.2 c10Quarter (by decide)⟩

/-- The size accumulated by the scan loop is the sum of the sizes of the
collected entries. -/
theorem scanLoop_total_size (sc : DirectoryScanner) :
    ∀ walk : List WalkEntry,
      (scanLoop sc walk).2 = ((scanLoop sc walk).1.map (fun kv => kv.2.size)).sum := by
  intro walk
  induction walk with
  | nil => simp [scanLoop]
  | cons e rest ih =>
      by_cases h : !sc.is_excluded (sc.source ++ e.path) && e.isFile
      · simp [scanLoop, h, ih]
      · simp [scanLoop, h, ih]

/-- Every entry the scan loop collects is keyed by its own
`relative_path`. -/
theorem scanLoop_keys (sc : DirectoryScanner) :
    ∀ walk : List WalkEntry, ∀ kv ∈ (scanLoop sc walk).1,
      kv.2.relative_path = kv.1 := by
  intro walk
  induction walk with
  | nil => simp [scanLoop]
  | cons e rest ih =>
      by_cases h : !sc.is_excluded (sc.source ++ e.path) && e.isFile
      · intro kv hkv
        simp only [scanLoop, h, if_true] at hkv
        rcases List.mem_cons.mp hkv with h1 | h1
        · subst h1; rfl
        · exact ih kv h1
      · intro kv hkv
        simp only [scanLoop, h, if_false] at hkv
        exact ih kv hkv

/-- C8: every `ScanResult` produced by `scan()` (over a walk of the source
tree, whose paths are pairwise distinct as on a real filesystem) has
`total_files = |files|`, `total_size = Σ files[k].size`, and every entry
keyed by its own `relative_path`. -/
theorem scan_result_invariants (sc : DirectoryScanner) (walk : List WalkEntry)
    (now : Nat) (hw : (walk.map WalkEntry.relativePath).Nodup) :
    (sc.scan walk now).total_files = (sc.scan walk now).files.length ∧
    (sc.scan walk now).total_size
      = ((sc.scan walk now).files.map (fun kv => kv.2.size)).sum ∧
    ∀ kv ∈ (sc.scan walk now).files, kv.2.relative_path = kv.1 := by
  refine ⟨rfl, ?_, ?_⟩
  · exact scanLoop_total_size sc walk
  · exact scanLoop_keys sc walk

/-- A concrete two-file walk for the C8 witness. -/
def c8Walk : List WalkEntry :=
  [{ path := ["test.txt"], isFile := true, size := 15, modified := 100,
     content := [72, 105] },
   { path := ["docs", "a.md"], isFile := true, size := 7, modified := 200,
     content := [65] },
   { path := [".git", "HEAD"], isFile := true, size := 3, modified := 50,
     content := [1, 2, 3] }]

/-- C8 witness: the invariants at a concrete scanner and walk. -/
theorem scan_result_invariants_witness :
    ((DirectoryScanner.new ["root"]).with_hash.scan c8Walk 0).total_files
      = ((DirectoryScanner.new ["root"]).with_hash.scan c8Walk 0).files.length ∧
    ((DirectoryScanner.new ["root"]).with_hash.scan c8Walk 0).total_size
      = (((DirectoryScanner.new ["root"]).with_hash.scan c8Walk 0).files.map
          (fun kv => kv.2.size)).sum ∧
    ∀ kv ∈ ((DirectoryScanner.new ["root"]).with_hash.scan c8Walk 0).files,
      kv.2.relative_path = kv.1 :=
  scan_result_invariants (DirectoryScanner.new ["root"]).with_hash c8Walk 0
    (by decide)

/-- Membership in the three lists produced by the shared classification
loop, characterised by the lookup and the modification test. -/
theorem classifyNew_mem {β : Type} (lk : String → Option β)
    (im : β → FileInfo → Bool) (l : List (String × FileInfo)) (p : String) :
    (p ∈ (classifyNew lk im l).1 ↔ ∃ fi, (p, fi) ∈ l ∧ lk p = none) ∧
    (p ∈ (classifyNew lk im l).2.1 ↔
      ∃ fi, (p, fi) ∈ l ∧ ∃ b, lk p = some b ∧ im b fi = true) ∧
    (p ∈ (classifyNew lk im l).2.2 ↔
      ∃ fi, (p, fi) ∈ l ∧ ∃ b, lk p = some b ∧ im b fi = false) := by
  induction l with
  | nil => simp [classifyNew]
  | cons a rest ih =>
      obtain ⟨q, fi0⟩ := a
      obtain ⟨ih1, ih2, ih3⟩ := ih
      by_cases hpq : p = q
      · subst hpq
        cases hq : lk p with
        | none => simp [classifyNew, hq, ih1, ih2, ih3]
        | some b =>
            by_cases him : im b fi0
            · simp [classifyNew, hq, him, ih1, ih2, ih3]
            · simp [classifyNew, hq, him, ih1, ih2, ih3]
      · cases hq : lk q with
        | none =>
            simp [classifyNew, hq, ih1, ih2, ih3, hpq, Ne.symm hpq]
        | some b =>
            by_cases him : im b fi0
            · simp [classifyNew, hq, him, ih1, ih2, ih3, hpq, Ne.symm hpq]
            · simp [classifyNew, hq, him, ih1, ih2, ih3, hpq, Ne.symm hpq]

/-- Membership in the deleted list produced by the shared deletion loop. -/
theorem detectDeleted_mem {β : Type} (cur : List (String × FileInfo))
    (l : List (String × β)) (p : String) :
    p ∈ detectDeleted cur l ↔ (∃ b, (p, b) ∈ l) ∧ mapGet cur p = none := by
  induction l with
  | nil => simp [detectDeleted]
  | cons a rest ih =>
      obtain ⟨q, b0⟩ := a
      by_cases hpq : p = q
      · subst hpq
        cases hcur : mapGet cur p with
        | some v => simp [detectDeleted, hcur, ih]
        | none => simp [detectDeleted, hcur, ih]
      · cases hcur : mapGet cur q with
        | some v => simp [detectDeleted, hcur, ih, hpq, Ne.symm hpq]
        | none => simp [detectDeleted, hcur, ih, hpq, Ne.symm hpq]

/-- In a map with pairwise distinct keys, a key determines its value. -/
theorem mem_value_unique {α : Type} {l : List (String × α)} {p : String}
    {a b : α} (hn : (l.map Prod.fst).Nodup)
    (ha : (p, a) ∈ l) (hb : (p, b) ∈ l) : a = b := by
  have h1 := mem_mapGet_of_nodup hn ha
  have h2 := mem_mapGet_of_nodup hn hb
  rw [h1] at h2
  exact (Option.some.injEq _ _).mp h2

/-- C7: for every previous manifest and current scan (with unique map
keys, as `HashMap` guarantees), the four `DiffResult` lists of
`compute_diff_from_manifest` are pairwise disjoint and their union is
exactly the union of the manifest's keys and the scan's keys. -/
theorem diff_partition (m : BackupManifest) (s : ScanResult)
    (hs : (s.files.map Prod.fst).Nodup) :
    ((compute_diff_from_manifest m s).added.Disjoint
        (compute_diff_from_manifest m s).modified ∧
     (compute_diff_from_manifest m s).added.Disjoint
        (compute_diff_from_manifest m s).unchanged ∧
     (compute_diff_from_manifest m s).added.Disjoint
        (compute_diff_from_manifest m s).deleted ∧
     (compute_diff_from_manifest m s).modified.Disjoint
        (compute_diff_from_manifest m s).unchanged ∧
     (compute_diff_from_manifest m s).modified.Disjoint
        (compute_diff_from_manifest m s).deleted ∧
     (compute_diff_from_manifest m s).unchanged.Disjoint
        (compute_diff_from_manifest m s).deleted) ∧
    (∀ p : String,
      (p ∈ (compute_diff_from_manifest m s).added ∨
       p ∈ (compute_diff_from_manifest m s).modified ∨
       p ∈ (compute_diff_from_manifest m s).unchanged ∨
       p ∈ (compute_diff_from_manifest m s).deleted) ↔
      (p ∈ m.files.map Prod.fst ∨ p ∈ s.files.map Prod.fst)) := by
  have hA : ∀ p, p ∈ (compute_diff_from_manifest m s).added ↔
      ∃ fi, (p, fi) ∈ s.files ∧ mapGet m.files p = none :=
    fun p => (classifyNew_mem (mapGet m.files) manifestPairModified s.files p).1
  have hM : ∀ p, p ∈ (compute_diff_from_manifest m s).modified ↔
      ∃ fi, (p, fi) ∈ s.files ∧
        ∃ b, mapGet m.files p = some b ∧ manifestPairModified b fi = true :=
    fun p => (classifyNew_mem (mapGet m.files) manifestPairModified s.files p).2.1
  have hU : ∀ p, p ∈ (compute_diff_from_manifest m s).unchanged ↔
      ∃ fi, (p, fi) ∈ s.files ∧
        ∃ b, mapGet m.files p = some b ∧ manifestPairModified b fi = false :=
    fun p => (classifyNew_mem (mapGet m.files) manifestPairModified s.files p).2.2
  have hD : ∀ p, p ∈ (compute_diff_from_manifest m s).deleted ↔
      (∃ b, (p, b) ∈ m.files) ∧ mapGet s.files p = none :=
    fun p => detectDeleted_mem s.files m.files p
  have notInScan : ∀ p : String, mapGet s.files p = none →
      ∀ fi, (p, fi) ∈ s.files → False := by
    intro p hnone fi hmem
    exact (mapGet_eq_none _ _).mp hnone (List.mem_map.mpr ⟨(p, fi), hmem, rfl⟩)
  refine ⟨⟨?_, ?_, ?_, ?_, ?_, ?_⟩, ?_⟩
  · intro p hp1 hp2
    obtain ⟨fi, _, hnone⟩ := (hA p).mp hp1
    obtain ⟨fi2, _, b, hsome, _⟩ := (hM p).mp hp2
    rw [hnone] at hsome
    cases hsome
  · intro p hp1 hp2
    obtain ⟨fi, _, hnone⟩ := (hA p).mp hp1
    obtain ⟨fi2, _, b, hsome, _⟩ := (hU p).mp hp2
    rw [hnone] at hsome
    cases hsome
  · intro p hp1 hp2
    obtain ⟨fi, hmem, _⟩ := (hA p).mp hp1
    obtain ⟨_, hnone⟩ := (hD p).mp hp2
    exact notInScan p hnone fi hmem
  · intro p hp1 hp2
    obtain ⟨fi1, hm1, b1, hs1, ht⟩ := (hM p).mp hp1
    obtain ⟨fi2, hm2, b2, hs2, hf⟩ := (hU p).mp hp2
    obtain rfl : fi1 = fi2 := mem_value_unique hs hm1 hm2
    rw [hs1] at hs2
    obtain rfl : b1 = b2 := (Option.some.injEq _ _).mp hs2
    rw [ht] at hf
    cases hf
  · intro p hp1 hp2
    obtain ⟨fi, hmem, _⟩ := (hM p).mp hp1
    obtain ⟨_, hnone⟩ := (hD p).mp hp2
    exact notInScan p hnone fi hmem
  · intro p hp1 hp2
    obtain ⟨fi, hmem, _⟩ := (hU p).mp hp1
    obtain ⟨_, hnone⟩ := (hD p).mp hp2
    exact notInScan p hnone fi hmem
  · intro p
    constructor
    · rintro (h | h | h | h)
      · obtain ⟨fi, hmem, _⟩ := (hA p).mp h
        exact Or.inr (List.mem_map.mpr ⟨(p, fi), hmem, rfl⟩)
      · obtain ⟨fi, hmem, _⟩ := (hM p).mp h
        exact Or.inr (List.mem_map.mpr ⟨(p, fi), hmem, rfl⟩)
      · obtain ⟨fi, hmem, _⟩ := (hU p).mp h
        exact Or.inr (List.mem_map.mpr ⟨(p, fi), hmem, rfl⟩)
      · obtain ⟨⟨b, hmem⟩, _⟩ := (hD p).mp h
        exact Or.inl (List.mem_map.mpr ⟨(p, b), hmem, rfl⟩)
    · rintro (h | h)
      · obtain ⟨x, hx, hfst⟩ := List.mem_map.mp h
        have hmemM : (p, x.2) ∈ m.files := by
          rw [← hfst]
          simpa using hx
        cases hcur : mapGet s.files p with
        | none => exact Or.inr (Or.inr (Or.inr ((hD p).mpr ⟨⟨x.2, hmemM⟩, hcur⟩)))
        | some fi =>
            have hmemS : (p, fi) ∈ s.files := mapGet_some_mem hcur
            obtain ⟨e, he⟩ := mapGet_isSome_of_mem hmemM
            cases him : manifestPairModified e fi with
            | false =>
                exact Or.inr (Or.inr (Or.inl ((hU p).mpr ⟨fi, hmemS, e, he, him⟩)))
            | true =>
                exact Or.inr (Or.inl ((hM p).mpr ⟨fi, hmemS, e, he, him⟩))
      · obtain ⟨x, hx, hfst⟩ := List.mem_map.mp h
        have hmemS : (p, x.2) ∈ s.files := by
          rw [← hfst]
          simpa using hx
        cases hman : mapGet m.files p with
        | none => exact Or.inl ((hA p).mpr ⟨x.2, hmemS, hman⟩)
        | some e =>
            cases him : manifestPairModified e x.2 with
            | false =>
                exact Or.inr (Or.inr (Or.inl ((hU p).mpr ⟨x.2, hmemS, e, hman, him⟩)))
            | true =>
                exact Or.inr (Or.inl ((hM p).mpr ⟨x.2, hmemS, e, hman, him⟩))

/-- The diff-classification scenario of §8 (scenario 5), for the C7
witness. -/
def c7Manifest : BackupManifest :=
  { version := "1.0.0", created_at := 0, updated_at := 0, source_dir := "/src",
    config := { encrypt := false, compress := false, incremental := true },
    files := [("a.txt", { path := "a.txt", original_size := 1, backed_up_size := 0,
                          hash := "hash_a", modified := 1, encrypted := false,
                          compressed := false }),
              ("b.txt", { path := "b.txt", original_size := 2, backed_up_size := 0,
                          hash := "hash_b", modified := 2, encrypted := false,
                          compressed := false })]
    stats := { total_files := 2, total_original_size := 3,
               total_backed_up_size := 0, last_backup := 0, backup_count := 1 } }

def c7Scan : ScanResult :=
  { source_dir := "/src", scanned_at := 5,
    files := [("a.txt", { relative_path := "a.txt", size := 1, modified := 1,
                          hash := some "hash_a" }),
              ("c.txt", { relative_path := "c.txt", size := 3, modified := 3,
                          hash := some "hash_c" })]
    total_files := 2, total_size := 4 }

/-- C7 witness: the partition property at the concrete §8 scenario-5
manifest and scan. -/
theorem diff_partition_witness :
    (compute_diff_from_manifest c7Manifest c7Scan).added.Disjoint
      (compute_diff_from_manifest c7Manifest c7Scan).modified ∧
    (∀ p : String,
      (p ∈ (compute_diff_from_manifest c7Manifest c7Scan).added ∨
       p ∈ (compute_diff_from_manifest c7Manifest c7Scan).modified ∨
       p ∈ (compute_diff_from_manifest c7Manifest c7Scan).unchanged ∨
       p ∈ (compute_diff_from_manifest c7Manifest c7Scan).deleted) ↔
      (p ∈ c7Manifest.files.map Prod.fst ∨ p ∈ c7Scan.files.map Prod.fst)) :=
  ⟨(diff_partition c7Manifest c7Scan (by decide)).1.1,
   (diff_partition c7Manifest c7Scan (by decide)).2⟩

/-- When both lookups at `p` are fixed and the scan's keys are unique,
membership in the modified/unchanged lists reduces to the modification
test on the looked-up pair. -/
theorem classify_pair_iff {β : Type} (lk : String → Option β)
    (im : β → FileInfo → Bool) (l : List (String × FileInfo)) (p : String)
    (b0 : β) (ni : FileInfo) (hn : (l.map Prod.fst).Nodup)
    (hb : lk p = some b0) (hni : mapGet l p = some ni) :
    (p ∈ (classifyNew lk im l).2.2 ↔ im b0 ni = false) ∧
    (p ∈ (classifyNew lk im l).2.1 ↔ im b0 ni = true) := by
  have hmm : (p, ni) ∈ l := mapGet_some_mem hni
  constructor
  · rw [(classifyNew_mem lk im l p).2.2]
    constructor
    · rintro ⟨fi, hmem, b, hsome, hmod⟩
      obtain rfl : fi = ni := mem_value_unique hn hmem hmm
      rw [hb] at hsome
      obtain rfl : b0 = b := (Option.some.injEq _ _).mp hsome
      exact hmod
    · intro hmod
      exact ⟨ni, hmm, b0, hb, hmod⟩
  · rw [(classifyNew_mem lk im l p).2.1]
    constructor
    · rintro ⟨fi, hmem, b, hsome, hmod⟩
      obtain rfl : fi = ni := mem_value_unique hn hmem hmm
      rw [hb] at hsome
      obtain rfl : b0 = b := (Option.some.injEq _ _).mp hsome
      exact hmod
    · intro hmod
      exact ⟨ni, hmm, b0, hb, hmod⟩

/-- The scan-vs-scan modification test when the current side has no hash:
it is the (size, modified) inequality test, whatever the old hash is. -/
theorem scanPairModified_no_hash (oi ni : FileInfo) (h : ni.hash = none) :
    (scanPairModified oi ni = false ↔
      (oi.size = ni.size ∧ oi.modified = ni.modified)) := by
  unfold scanPairModified
  rw [h]
  cases oi.hash <;> simp

/-- The manifest-vs-scan modification test when the scan has no hash: it
compares the manifest hash against the empty string. -/
theorem manifestPairModified_no_hash (e : ManifestEntry) (ni : FileInfo)
    (h : ni.hash = none) :
    (manifestPairModified e ni = false ↔ e.hash = "") := by
  unfold manifestPairModified
  rw [h]
  simp [Option.getD]

/-- The manifest entry of the C6 counterexample: hashed at backup time. -/
def c6Entry : ManifestEntry :=
  { path := "a.txt", original_size := 5, backed_up_size := 0, hash := "h",
    modified := 10, encrypted := false, compressed := false }

def c6Manifest : BackupManifest :=
  { version := "1.0.0", created_at := 0, updated_at := 0, source_dir := "/src",
    config := { encrypt := false, compress := false, incremental := true },
    files := [("a.txt", c6Entry)],
    stats := { total_files := 1, total_original_size := 5,
               total_backed_up_size := 0, last_backup := 0, backup_count := 1 } }

/-- The same file rescanned with hashing disabled: identical size and
modified timestamp, no hash. -/
def c6ScanInfo : FileInfo :=
  { relative_path := "a.txt", size := 5, modified := 10, hash := none }

def c6Scan : ScanResult :=
  { source_dir := "/src", scanned_at := 1, files := [("a.txt", c6ScanInfo)],
    total_files := 1, total_size := 5 }

/-- C6 counterexample: a path present in both the previous manifest and
the current scan, carrying no hash in the scan and with size and modified
timestamp equal to the previous record's, is classified `modified` by
`compute_diff_from_manifest` — not `unchanged` as the claim states: this
differ never falls back to (size, modified) equality. -/
theorem manifest_diff_no_fallback_counterexample :
    c6ScanInfo.hash = none ∧
    c6Entry.original_size = c6ScanInfo.size ∧
    c6Entry.modified = c6ScanInfo.modified ∧
    (compute_diff_from_manifest c6Manifest c6Scan).modified = ["a.txt"] ∧
    (compute_diff_from_manifest c6Manifest c6Scan).unchanged = [] := by decide

/-- C6 amended: for a path present in both sides whose current scan entry
carries no hash, `compute_diff` (scan vs scan) classifies it unchanged
exactly when both size and modified timestamp are equal, but
`compute_diff_from_manifest` (manifest vs scan) treats the missing hash
as the empty string and classifies the path unchanged exactly when the
manifest entry's stored hash is empty, with no fallback to
(size, modified). -/
theorem diff_no_hash_classification :
    (∀ (old new : ScanResult) (p : String) (oi ni : FileInfo),
      (new.files.map Prod.fst).Nodup →
      mapGet old.files p = some oi → mapGet new.files p = some ni →
      ni.hash = none →
      ((p ∈ (compute_diff old new).unchanged ↔
          (oi.size = ni.size ∧ oi.modified = ni.modified)) ∧
       (p ∈ (compute_diff old new).modified ↔
          ¬(oi.size = ni.size ∧ oi.modified = ni.modified)))) ∧
    (∀ (m : BackupManifest) (s : ScanResult) (p : String)
        (e : ManifestEntry) (ni : FileInfo),
      (s.files.map Prod.fst).Nodup →
      mapGet m.files p = some e → mapGet s.files p = some ni →
      ni.hash = none →
      ((p ∈ (compute_diff_from_manifest m s).unchanged ↔ e.hash = "") ∧
       (p ∈ (compute_diff_from_manifest m s).modified ↔ e.hash ≠ ""))) := by
  constructor
  · intro old new p oi ni hn hold hnew hni
    obtain ⟨hu, hm⟩ := classify_pair_iff (mapGet old.files) scanPairModified
      new.files p oi ni hn hold hnew
    constructor
    · exact hu.trans (scanPairModified_no_hash oi ni hni)
    · refine hm.trans ?_
      rw [← (scanPairModified_no_hash oi ni hni).not]
      cases scanPairModified oi ni <;> simp
  · intro m s p e ni hn hman hscan hni
    obtain ⟨hu, hm⟩ := classify_pair_iff (mapGet m.files) manifestPairModified
      s.files p e ni hn hman hscan
    constructor
    · exact hu.trans (manifestPairModified_no_hash e ni hni)
    · refine hm.trans ?_
      rw [show (e.hash ≠ "") = ¬(e.hash = "") from rfl,
        ← (manifestPairModified_no_hash e ni hni).not]
      cases manifestPairModified e ni <;> simp

/-- An old scan of the same file, hashed, for the C6 witness. -/
def c6OldScan : ScanResult :=
  { source_dir := "/src", scanned_at := 0,
    files := [("a.txt", { relative_path := "a.txt", size := 5, modified := 10,
                          hash := some "x" })],
    total_files := 1, total_size := 5 }

/-- C6 witness: both amended classifications at concrete inputs. -/
theorem diff_no_hash_classification_witness :
    ("a.txt" ∈ (compute_diff c6OldScan c6Scan).unchanged ↔
      ((5 : Nat) = 5 ∧ (10 : Nat) = 10)) ∧
    ("a.txt" ∈ (compute_diff_from_manifest c6Manifest c6Scan).modified ↔
      c6Entry.hash ≠ "") :=
  ⟨(diff_no_hash_classification.1 c6OldScan c6Scan "a.txt"
      { relative_path := "a.txt", size := 5, modified := 10, hash := some "x" }
      c6ScanInfo (by decide) rfl rfl rfl).1,
   (diff_no_hash_classification.2 c6Manifest c6Scan "a.txt" c6Entry c6ScanInfo
      (by decide) rfl rfl rfl).2⟩

/-- The `processed_files` carried by the per-file `Backing` events are
the enumeration indices, whatever the per-file outcomes are. -/
theorem backupLoop_events_processed (bf : String → Except String Nat)
    (tf tb : Nat) :
    ∀ (l : List String) (idx a b : Nat),
      (backupLoop bf tf tb l idx a b).events.map (fun ev => ev.processed_files)
        = List.range' idx l.length := by
  intro l
  induction l with
  | nil => intro idx a b; simp [backupLoop]
  | cons p rest ih =>
      intro idx a b
      cases hbf : bf p with
      | ok n => simp [backupLoop, hbf, ih, List.range'_succ]
      | error e => simp [backupLoop, hbf, ih, List.range'_succ]

/-- When every file in the work set backs up successfully, the loop
counts every file and records no failure. -/
theorem backupLoop_all_ok (bf : String → Except String Nat) (tf tb : Nat) :
    ∀ (l : List String) (idx a b : Nat),
      (∀ p ∈ l, ∃ n, bf p = .ok n) →
      (backupLoop bf tf tb l idx a b).backed_up_files = a + l.length ∧
      (backupLoop bf tf tb l idx a b).failed_files = [] := by
  intro l
  induction l with
  | nil => intro idx a b _; simp [backupLoop]
  | cons p rest ih =>
      intro idx a b hok
      obtain ⟨n, hn⟩ := hok p (List.mem_cons_self p rest)
      have hrest := ih (idx + 1) (a + 1) (b + n)
        (fun q hq => hok q (List.mem_cons_of_mem _ hq))
      refine ⟨?_, ?_⟩
      · simp only [backupLoop, hn]
        rw [hrest.1]
        simp
        omega
      · simp only [backupLoop, hn]
        exact hrest.2

/-- The list `[i, i+1, ..., i+n-1, i+n]` is a nondecreasing chain. -/
theorem chain'_le_range'_append (n : Nat) :
    ∀ i : Nat, List.Chain' (· ≤ ·) (List.range' i n ++ [i + n]) := by
  induction n with
  | zero => intro i; simp
  | succ m ih =>
      intro i
      rw [List.range'_succ, show i + (m + 1) = (i + 1) + m by omega]
      refine List.chain'_cons'.mpr ⟨?_, ih (i + 1)⟩
      intro y hy
      cases m with
      | zero =>
          simp at hy
          omega
      | succ k =>
          rw [List.range'_succ] at hy
          simp at hy
          omega

/-- Two failing files, for the C9 counterexample. -/
def c9Scan : ScanResult :=
  { source_dir := "/src", scanned_at := 0,
    files := [("a.txt", { relative_path := "a.txt", size := 1, modified := 1,
                          hash := some "ha" }),
              ("b.txt", { relative_path := "b.txt", size := 2, modified := 2,
                          hash := some "hb" })]
    total_files := 2, total_size := 3 }

def c9Config : BackupConfig :=
  { source_dir := "/src", dest_dir := "/dst", encrypt := false,
    compress := false, incremental := false, exclude_patterns := [] }

/-- C9 counterexample: in a run where both files fail to back up, the
emitted `processed_files` sequence is `[0, 0, 0, 1, 0]` — the terminal
`Failed` event carries `backed_up_files = 0`, below the last per-file
index — so the sequence of the claim is not monotone nondecreasing. -/
theorem progress_monotone_counterexample :
    ¬ List.Chain' (· ≤ ·)
      ((BackupExecutor.execute c9Config c9Scan none
          (fun _ => .error "IOエラー") 0 0 0).events.map
        (fun ev => ev.processed_files)) := by
  intro h
  have hmap : (BackupExecutor.execute c9Config c9Scan none
      (fun _ => .error "IOエラー") 0 0 0).events.map
        (fun ev => ev.processed_files) = [0, 0, 0, 1, 0] := by decide
  rw [hmap] at h
  simp only [List.chain'_cons] at h
  exact absurd h.2.2.2.1 (by omega)

/-- C9 amended: the `processed_files` values of the successive progress
events (terminal event included) form a monotone nondecreasing sequence
provided every file in the work set backs up successfully; with per-file
failures the terminal event carries `backed_up_files`, which can drop
below the last per-file index. -/
theorem progress_monotone_when_no_failures (config : BackupConfig)
    (scan : ScanResult) (prev : Option BackupManifest)
    (bf : String → Except String Nat) (t1 t2 t3 : Nat)
    (hok : ∀ p ∈ (filesToBackup config scan prev).1, ∃ n, bf p = .ok n) :
    List.Chain' (· ≤ ·)
      ((BackupExecutor.execute config scan prev bf t1 t2 t3).events.map
        (fun ev => ev.processed_files)) := by
  have hev := backupLoop_events_processed bf
    (filesToBackup config scan prev).1.length scan.total_size
    (filesToBackup config scan prev).1 0 0 0
  have hcnt := backupLoop_all_ok bf (filesToBackup config scan prev).1.length
    scan.total_size (filesToBackup config scan prev).1 0 0 0 hok
  simp only [BackupExecutor.execute, List.map_cons, List.map_append,
    List.map_cons, List.map_nil]
  rw [hev, hcnt.1]
  refine List.chain'_cons'.mpr ⟨fun y _ => Nat.zero_le y, ?_⟩
  refine List.chain'_cons'.mpr ⟨fun y _ => Nat.zero_le y, ?_⟩
  simpa using chain'_le_range'_append (filesToBackup config scan prev).1.length 0

/-- C9 witness: the monotone conclusion at a concrete run where the one
work-set file succeeds. -/
theorem progress_monotone_when_no_failures_witness :
    List.Chain' (· ≤ ·)
      ((BackupExecutor.execute c9Config c9Scan none
          (fun _ => .ok 1) 0 0 0).events.map
        (fun ev => ev.processed_files)) :=
  progress_monotone_when_no_failures c9Config c9Scan none (fun _ => .ok 1)
    0 0 0 (fun p _ => ⟨1, rfl⟩)

/-- A well-formed envelope whose AEAD verification fails decrypts to
`DecryptionFailed`. -/
theorem decrypt_envelope_aead_fail (e2 : Encryptor) (salt nonce ct : List Nat)
    (hsalt : salt.length = 32) (hnonce : nonce.length = 12)
    (hfail : aeadDecrypt (derive_key (utf8Lossy e2.key) salt) nonce ct = none) :
    e2.decrypt (salt ++ (nonce ++ ct)) = .error .DecryptionFailed := by
  obtain ⟨hp1, hp2, hp3⟩ := envelope_parse salt nonce ct hsalt hnonce
  have hlen : ¬ (salt ++ (nonce ++ ct)).length < SALT_SIZE + NONCE_SIZE := by
    simp only [List.length_append, hsalt, hnonce, SALT_SIZE, NONCE_SIZE,
      Nat.not_lt]
    omega
  unfold Encryptor.decrypt
  rw [if_neg hlen]
  simp only [SALT_SIZE, NONCE_SIZE]
  rw [show (32 + 12 : Nat) = 44 from rfl, hp1, hp2, hp3, hfail]

/-- The manifest entry of an encrypted, compressed backup of `path`. -/
def c4Entry (path hash : String) (sz md : Nat) : ManifestEntry :=
  { path := path, original_size := sz, backed_up_size := 0, hash := hash,
    modified := md, encrypted := true, compressed := true }

/-- C4: restoring an encrypted backup with a passphrase different from
the backup passphrase (different enough that the two derived per-blob
keys differ — the hash is treated as collision-resistant) yields
`success = false`, a `failed_files` list with the single
`"<path>: <WrongPassword message>"` entry, and no write at the restore
destination. -/
theorem restore_wrong_password (W W2 path hash : String)
    (content salt nonce env : List Nat) (sz md t1 t2 : Nat)
    (overwrite : Bool) (m : BackupManifest)
    (hsalt : salt.length = 32) (hnonce : nonce.length = 12)
    (hm : m.files = [(path, c4Entry path hash sz md)])
    (hkeys : derive_key (utf8Lossy (Encryptor.new W2).key) salt ≠
             derive_key (utf8Lossy (Encryptor.new W).key) salt)
    (henv : (Encryptor.new W).encrypt salt nonce (zstdEncode 3 content)
              = .ok env) :
    (RestoreExecutor.execute
        { backup_dir := "/bak", restore_dir := "/restore", files := [],
          overwrite := overwrite }
        (some (Encryptor.new W2)) m [(addEncExtension path, env)] []
        t1 t2).1.success = false ∧
    (RestoreExecutor.execute
        { backup_dir := "/bak", restore_dir := "/restore", files := [],
          overwrite := overwrite }
        (some (Encryptor.new W2)) m [(addEncExtension path, env)] []
        t1 t2).1.failed_files
      = [path ++ ": " ++ "パスワードが正しくありません"] ∧
    (RestoreExecutor.execute
        { backup_dir := "/bak", restore_dir := "/restore", files := [],
          overwrite := overwrite }
        (some (Encryptor.new W2)) m [(addEncExtension path, env)] []
        t1 t2).2 = [] := by
  have henv2 : env = salt ++ (nonce ++ aeadEncrypt
      (derive_key (utf8Lossy (Encryptor.new W).key) salt) nonce
      (zstdEncode 3 content)) := by
    simp only [Encryptor.encrypt, Except.ok.injEq] at henv
    rw [← henv, List.append_assoc]
  have hdec : (Encryptor.new W2).decrypt env = .error .DecryptionFailed := by
    rw [henv2]
    exact decrypt_envelope_aead_fail _ salt nonce _ hsalt hnonce
      (aead_reject_wrong_key _ _ nonce nonce _ (derive_key_length _ _) hkeys)
  have hrf : RestoreExecutor.restore_file
      { backup_dir := "/bak", restore_dir := "/restore", files := [],
        overwrite := overwrite }
      (some (Encryptor.new W2)) [(addEncExtension path, env)] [] m
      (c4Entry path hash sz md) = .error .WrongPassword := by
    unfold RestoreExecutor.restore_file
    rw [if_neg (fun hc => List.not_mem_nil _ hc.1)]
    simp only [c4Entry, if_true, mapGet, if_pos rfl, hdec]
  simp only [RestoreExecutor.execute, hm, List.isEmpty_nil, if_true,
    List.map_cons, List.map_nil, restoreLoop, hrf, RestoreError.message]
  exact ⟨rfl, rfl, trivial⟩

def c4Salt : List Nat := List.replicate 32 7
def c4Nonce : List Nat := List.replicate 12 3
def c4Content : List Nat := strBytes "Secret Data!"

/-- The envelope the backup run writes for the C4 witness scenario. -/
def c4Env : List Nat :=
  c4Salt ++ (c4Nonce ++ aeadEncrypt
    (derive_key (utf8Lossy (Encryptor.new "test_password_123").key) c4Salt)
    c4Nonce (zstdEncode 3 c4Content))

def c4Manifest : BackupManifest :=
  { version := "1.0.0", created_at := 0, updated_at := 0, source_dir := "/src",
    config := { encrypt := true, compress := true, incremental := false },
    files := [("secret.txt", c4Entry "secret.txt" "h" 12 42)],
    stats := { total_files := 1, total_original_size := 12,
               total_backed_up_size := 0, last_backup := 0, backup_count := 1 } }

set_option maxRecDepth 8000 in
/-- C4 witness: the wrong-passphrase restore at the concrete §8
scenario-3 inputs; the key-separation hypothesis is discharged by
computing both derived keys. -/
theorem restore_wrong_password_witness :
    (RestoreExecutor.execute
        { backup_dir := "/bak", restore_dir := "/restore", files := [],
          overwrite := true }
        (some (Encryptor.new "wrong_password")) c4Manifest
        [(addEncExtension "secret.txt", c4Env)] [] 0 1).1.success = false ∧
    (RestoreExecutor.execute
        { backup_dir := "/bak", restore_dir := "/restore", files := [],
          overwrite := true }
        (some (Encryptor.new "wrong_password")) c4Manifest
        [(addEncExtension "secret.txt", c4Env)] [] 0 1).1.failed_files
      = ["secret.txt" ++ ": " ++ "パスワードが正しくありません"] ∧
    (RestoreExecutor.execute
        { backup_dir := "/bak", restore_dir := "/restore", files := [],
          overwrite := true }
        (some (Encryptor.new "wrong_password")) c4Manifest
        [(addEncExtension "secret.txt", c4Env)] [] 0 1).2 = [] :=
  restore_wrong_password "test_password_123" "wrong_password" "secret.txt" "h"
    c4Content c4Salt c4Nonce c4Env 12 42 0 1 true c4Manifest
    (by simp [c4Salt]) (by simp [c4Nonce]) rfl (by decide) rfl

end SecureBackup
